import Mathlib

/-!
Verification of the Markdown → Telegraph conversion pipeline of
`scripts/telegraph.py` (block segmenter, block classifier, inline
tokenizer, size partitioner, navigation linker, publish orchestrator).

Python strings are modelled as Lean `String`s / `List Char`;
`str.strip()` is modelled over the ASCII whitespace characters that the
inputs of interest contain; Python `dict` nodes are modelled by `JNode`
with the exact key-insertion order the code uses, so that the JSON byte
sizes computed below agree with `json.dumps(..., ensure_ascii=False)`
(whose default separators are `", "` and `": "`).
-/

/-- ASCII whitespace as stripped by Python `str.strip()` / matched by `\s`. -/
def isPySpace (c : Char) : Bool :=
  c = ' ' || c = '\t' || c = '\n' || c = '\x0b' || c = '\x0c' || c = '\r'

/-- Models `line.strip()` on a character list. -/
def pyStripList (l : List Char) : List Char :=
  ((l.dropWhile isPySpace).reverse.dropWhile isPySpace).reverse

/-- Models `s.strip()`. -/
def pyStrip (s : String) : String :=
  String.mk (pyStripList s.toList)

/-- Regex `\w` (ASCII part, the only part exercised here). -/
def isWordChar (c : Char) : Bool :=
  c.isAlphanum || c = '_'

/-- Python `str.split(sep)` for a one-character separator, on character
lists: always at least one (possibly empty) piece, empty pieces kept. -/
def splitOnChar (sep : Char) : List Char → List (List Char)
  | [] => [[]]
  | c :: cs =>
      let r := splitOnChar sep cs
      if c = sep then [] :: r
      else (c :: r.headD []) :: r.tail

/-- Models `s.split(sep)` for a one-character separator. -/
def pySplit (sep : Char) (s : String) : List String :=
  (splitOnChar sep s.toList).map String.mk

/-- Models `s.startswith(p)`. -/
def strStartsWith (s p : String) : Bool :=
  p.toList.isPrefixOf s.toList

/-- Models `s.endswith(p)`. -/
def strEndsWith (s p : String) : Bool :=
  p.toList.isSuffixOf s.toList

/-- Models `c in s` for a single character. -/
def strContainsChar (s : String) (c : Char) : Bool :=
  s.toList.contains c

/-- The composite of `replace("\r\n", "\n")` and `replace("\r", "\n")`:
every CRLF pair collapses to one LF and every remaining CR becomes LF. -/
def normNL : List Char → List Char
  | [] => []
  | '\r' :: '\n' :: t => '\n' :: normNL t
  | '\r' :: t => '\n' :: normNL t
  | c :: t => c :: normNL t

/-- A Telegraph node as built by the Python code: either a bare string in a
children array, or a dict.  `objC` is a dict that carries a `children` key,
`objN` one that does not; `attrs` is present iff the option is `some`.
Key order in the serialized dict is always `tag`, then `attrs` (if present),
then `children` (if present), matching every construction site in the code. -/
inductive JNode where
  | str (s : String)
  | objC (tag : String) (attrs : Option (List (String × String))) (children : List JNode)
  | objN (tag : String) (attrs : Option (List (String × String)))

mutual

/-- Structural decidable equality for `JNode`. -/
def decEqJ : (a b : JNode) → Decidable (a = b)
  | .str a, .str b =>
      match decEq a b with
      | isTrue h => isTrue (by rw [h])
      | isFalse h => isFalse (by intro hh; injection hh; exact h (by assumption))
  | .objC t1 a1 c1, .objC t2 a2 c2 =>
      match decEq t1 t2, decEq a1 a2, decEqJL c1 c2 with
      | isTrue h1, isTrue h2, isTrue h3 => isTrue (by rw [h1, h2, h3])
      | isFalse h1, _, _ => isFalse (by intro hh; injection hh; exact h1 (by assumption))
      | _, isFalse h2, _ => isFalse (by intro hh; injection hh; exact h2 (by assumption))
      | _, _, isFalse h3 => isFalse (by intro hh; injection hh; exact h3 (by assumption))
  | .objN t1 a1, .objN t2 a2 =>
      match decEq t1 t2, decEq a1 a2 with
      | isTrue h1, isTrue h2 => isTrue (by rw [h1, h2])
      | isFalse h1, _ => isFalse (by intro hh; injection hh; exact h1 (by assumption))
      | _, isFalse h2 => isFalse (by intro hh; injection hh; exact h2 (by assumption))
  | .str _, .objC _ _ _ => isFalse (fun h => nomatch h)
  | .str _, .objN _ _ => isFalse (fun h => nomatch h)
  | .objC _ _ _, .str _ => isFalse (fun h => nomatch h)
  | .objC _ _ _, .objN _ _ => isFalse (fun h => nomatch h)
  | .objN _ _, .str _ => isFalse (fun h => nomatch h)
  | .objN _ _, .objC _ _ _ => isFalse (fun h => nomatch h)

/-- Structural decidable equality for `JNode` lists. -/
def decEqJL : (a b : List JNode) → Decidable (a = b)
  | [], [] => isTrue rfl
  | a :: as, b :: bs =>
      match decEqJ a b, decEqJL as bs with
      | isTrue h1, isTrue h2 => isTrue (by rw [h1, h2])
      | isFalse h1, _ => isFalse (by intro hh; injection hh; exact h1 (by assumption))
      | _, isFalse h2 => isFalse (by intro hh; injection hh; exact h2 (by assumption))
  | [], _ :: _ => isFalse (fun h => nomatch h)
  | _ :: _, [] => isFalse (fun h => nomatch h)

end

instance : DecidableEq JNode := decEqJ

/-- Byte cost of one character inside a JSON string literal produced by
`json.dumps(..., ensure_ascii=False)`: `"` and `\` are escaped to two bytes,
the shorthand control escapes take two bytes, other control characters take
a six-byte `\uXXXX` escape, everything else is emitted literally in UTF-8. -/
def escLen (c : Char) : Nat :=
  if c = '"' || c = '\\' then 2
  else if c = '\n' || c = '\t' || c = '\r' || c = '\x08' || c = '\x0c' then 2
  else if c.toNat < 32 then 6
  else c.utf8Size

/-- Byte length of `json.dumps(s, ensure_ascii=False)` for a string `s`. -/
def strJsonSize (s : String) : Nat :=
  2 + (s.toList.map escLen).sum

/-- Total size of items joined by the default `", "` separator. -/
def joinSizes : List Nat → Nat
  | [] => 0
  | [x] => x
  | x :: y :: t => x + 2 + joinSizes (y :: t)

/-- Size contribution of the `attrs` dict entry, when present. -/
def attrsItemSizes (attrs : Option (List (String × String))) : List Nat :=
  match attrs with
  | none => []
  | some a =>
      [strJsonSize "attrs" + 2 +
        (2 + joinSizes (a.map (fun kv => strJsonSize kv.1 + 2 + strJsonSize kv.2)))]

mutual

/-- Byte length of `json.dumps(node, ensure_ascii=False)`. -/
def nodeJsonSize : JNode → Nat
  | .str s => strJsonSize s
  | .objC tag attrs children =>
      2 + joinSizes ([strJsonSize "tag" + 2 + strJsonSize tag] ++ attrsItemSizes attrs ++
        [strJsonSize "children" + 2 + (2 + joinSizes (nodeSizes children))])
  | .objN tag attrs =>
      2 + joinSizes ([strJsonSize "tag" + 2 + strJsonSize tag] ++ attrsItemSizes attrs)

/-- Sizes of the members of a children array. -/
def nodeSizes : List JNode → List Nat
  | [] => []
  | n :: t => nodeJsonSize n :: nodeSizes t

end

/-- Byte length of `json.dumps(content, ensure_ascii=False)` for a node list;
this is exactly `estimate_content_size` in the source. -/
def estimate_content_size (content : List JNode) : Nat :=
  2 + joinSizes (nodeSizes content)

/-- Models `MAX_CONTENT_SIZE = 64 * 1024`. -/
def MAX_CONTENT_SIZE : Nat := 64 * 1024

/-- The greedy accumulation loop of `split_content_for_publishing`: state is
the finished parts, the current part and the running `current_size`
(initially 2, for the `[]` brackets); each node accounts for its JSON size
plus one byte for a comma. -/
def splitGo (maxSize : Nat) : List JNode → List (List JNode) → List JNode → Nat → List (List JNode)
  | [], parts, cur, _ => parts ++ (if cur.isEmpty then [] else [cur])
  | n :: t, parts, cur, cs =>
      let ns := nodeJsonSize n + 1
      if maxSize < cs + ns ∧ cur.isEmpty = false then
        splitGo maxSize t (parts ++ [cur]) [n] (2 + ns)
      else
        splitGo maxSize t parts (cur ++ [n]) (cs + ns)

/-- Models `split_content_for_publishing(content, max_size)`: one part when the
whole content fits, otherwise the greedy split. -/
def split_content_for_publishing (content : List JNode) (maxSize : Nat) : List (List JNode) :=
  if estimate_content_size content ≤ maxSize then [content]
  else splitGo maxSize content [] [] 2

/-- The `{"tag": "hr"}` node. -/
def hrNode : JNode := .objN "hr" none

/-- Link node `{"tag": "a", "attrs": {"href": url}, "children": [label]}`. -/
def aNode (url label : String) : JNode :=
  .objC "a" (some [("href", url)]) [.str label]

/-- The part-counter header paragraph prepended to chunk `i` of `n`. -/
def navHeader (i n : Nat) : JNode :=
  .objC "p" none [.objC "i" none [.str ("Часть " ++ toString (i + 1) ++ " из " ++ toString n)]]

/-- The children of the trailing navigation paragraph for chunk `i` of `n`:
back link and separator when `i > 0`, the always-present start link, then a
separator and forward link when `i < n - 1`.  Out-of-range URL indexing
never happens under the callers' length hypotheses. -/
def navChildren (urls : List String) (title : String) (n i : Nat) : List JNode :=
  (if 0 < i then [aNode (urls.getD (i - 1) "") "← Назад", .str " | "] else []) ++
  [aNode (urls.getD 0 "") (title ++ " (начало)")] ++
  (if i < n - 1 then [.str " | ", aNode (urls.getD (i + 1) "") "Далее →"] else [])

/-- Per-chunk transformation of `add_navigation_links`: header in front,
horizontal rule and navigation paragraph appended. -/
def navPart (urls : List String) (title : String) (n i : Nat) (part : List JNode) : List JNode :=
  navHeader i n :: part ++ [hrNode, .objC "p" none (navChildren urls title n i)]

/-- The `enumerate(parts)` loop of `add_navigation_links`. -/
def navAux (urls : List String) (title : String) (n : Nat) : Nat → List (List JNode) → List (List JNode)
  | _, [] => []
  | i, p :: ps => navPart urls title n i p :: navAux urls title n (i + 1) ps

/-- Models `add_navigation_links(parts, urls, title)`. -/
def add_navigation_links (parts : List (List JNode)) (urls : List String) (title : String) :
    List (List JNode) :=
  if parts.length ≤ 1 then parts else navAux urls title parts.length 0 parts

/-- The opening-fence test `re.match(r'^(`{3,}|~{3,})(\w*)?$', line.strip())`
of `_split_blocks`, returning the fence character on success: the stripped
line must be a maximal run of at least three backticks or tildes followed
only by word characters (an optional info string). -/
def openFenceChar (l : String) : Option Char :=
  match pyStripList l.toList with
  | [] => none
  | c :: rest =>
      if (c = '`' || c = '~') &&
         3 ≤ ((c :: rest).takeWhile (· = c)).length &&
         ((c :: rest).dropWhile (· = c)).all isWordChar then
        some c
      else none

/-- The closing-fence test of `_split_blocks`: the stripped line consists
solely of the recorded fence character, at least three of them.  The code
never compares against the opening fence's length. -/
def isCloseFence (fc : Char) (l : String) : Bool :=
  let t := pyStripList l.toList
  3 ≤ t.length && t.all (· = fc)

/-- Models `"\n".join(lines)`. -/
def joinN (lines : List String) : String :=
  String.intercalate "\n" lines

/-- Flush the current block if non-empty, as `if current_block: blocks.append`. -/
def flushIf (cur : List String) : List String :=
  if cur.isEmpty then [] else [joinN cur]

/-- The scanner state of `_split_blocks`: emitted blocks, current block's
lines, the inside-fence flag and the recorded fence character. -/
structure SState where
  blocks : List String
  cur : List String
  inCode : Bool
  fc : Char

/-- One loop iteration of `_split_blocks` on one line, mirroring the four
branches of the Python loop in order: opening fence (only outside a fence),
inside a fence (append, then maybe close), blank line, accumulate. -/
def stepLine (st : SState) (l : String) : SState :=
  match openFenceChar l, st.inCode with
  | some c, false =>
      { blocks := st.blocks ++ flushIf st.cur, cur := [l], inCode := true, fc := c }
  | _, true =>
      let cur' := st.cur ++ [l]
      if isCloseFence st.fc l then
        { blocks := st.blocks ++ [joinN cur'], cur := [], inCode := false, fc := st.fc }
      else
        { st with cur := cur' }
  | none, false =>
      if pyStrip l = "" then
        { st with blocks := st.blocks ++ flushIf st.cur, cur := [] }
      else
        { st with cur := st.cur ++ [l] }

/-- Run the `_split_blocks` loop over a list of lines from a state and
append the final flush. -/
def splitBlocksRun (lines : List String) (st : SState) : List String :=
  let r := lines.foldl stepLine st
  r.blocks ++ flushIf r.cur

/-- Models `_split_blocks(text)`: split on newlines and scan.  The initial fence
character is irrelevant — it is only read once the flag is on, which only
happens after an opening fence has recorded it. -/
def split_blocks (text : String) : List String :=
  splitBlocksRun (pySplit '\n' text) ⟨[], [], false, ' '⟩

/-- Split a character list at the first occurrence of `d`: returns the
characters before it and those after it.  This is the deterministic
residue of a greedy `[^d]*`/`[^d]+` followed by a literal `d` — the
character class cannot cross `d`, so no backtracking is possible. -/
def breakAt (d : Char) : List Char → Option (List Char × List Char)
  | [] => none
  | c :: cs =>
      if c = d then some ([], cs)
      else (breakAt d cs).map (fun p => (c :: p.1, p.2))

/-- One recognized inline element, with its capture groups. -/
inductive Piece where
  | img (alt url : List Char)
  | lnk (txt url : List Char)
  | bld (content : List Char)
  | itl (content : List Char)
  | cod (content : List Char)

/-- Attempt `!\[([^\]]*)\]\(([^)]+)\)` at the current position. -/
def matchImageAt : List Char → Option (Piece × List Char)
  | '!' :: '[' :: t =>
      match breakAt ']' t with
      | some (alt, '(' :: u) =>
          match breakAt ')' u with
          | some (url, rest) => if url.isEmpty then none else some (.img alt url, rest)
          | none => none
      | _ => none
  | _ => none

/-- Attempt `\[([^\]]+)\]\(([^)]+)\)` at the current position. -/
def matchLinkAt : List Char → Option (Piece × List Char)
  | '[' :: t =>
      match breakAt ']' t with
      | some (txt, '(' :: u) =>
          if txt.isEmpty then none
          else
            match breakAt ')' u with
            | some (url, rest) => if url.isEmpty then none else some (.lnk txt url, rest)
            | none => none
      | _ => none
  | _ => none

/-- Attempt `\*\*([^*]+)\*\*` (or the `__` form) at the current position:
two markers, a non-empty run free of the marker, then two markers — the
closing pair must be adjacent, there is nothing to backtrack into. -/
def matchBoldAt (d : Char) : List Char → Option (Piece × List Char)
  | c1 :: c2 :: t =>
      if c1 = d && c2 = d then
        match breakAt d t with
        | some (content, rest) =>
            if content.isEmpty then none
            else
              match rest with
              | r1 :: r2 => if r1 = d then some (.bld content, r2) else none
              | [] => none
        | none => none
      else none
  | _ => none

/-- Characters forbidden around a `*`-italic by `(?<![*\w]) ... (?![*\w])`. -/
def flankStar (c : Char) : Bool :=
  c = '*' || isWordChar c

/-- Characters forbidden around a `_`-italic by `(?<![_\w]) ... (?![_\w])`. -/
def flankUnd (c : Char) : Bool :=
  c = '_' || isWordChar c

/-- Attempt the italic pattern at the current position; `prev` is the
character before the position, for the lookbehind. -/
def matchItalAt (d : Char) (flank : Char → Bool) (prev : Option Char) :
    List Char → Option (Piece × List Char)
  | c :: t =>
      if (match prev with | none => true | some p => !(flank p)) && c = d then
        match breakAt d t with
        | some (content, rest) =>
            if content.isEmpty then none
            else
              match rest with
              | r :: _ => if flank r then none else some (.itl content, rest)
              | [] => some (.itl content, rest)
        | none => none
      else none
  | [] => none

/-- Attempt `` `([^`]+)` `` at the current position. -/
def matchCodeAt : List Char → Option (Piece × List Char)
  | c :: t =>
      if c = '`' then
        match breakAt '`' t with
        | some (content, rest) => if content.isEmpty then none else some (.cod content, rest)
        | none => none
      else none
  | [] => none

/-- Models `re.search`: try the pattern at every position left to right, tracking
the previous character for lookbehinds; return the match's start position,
its captures and the suffix after the match. -/
def searchAux (test : Option Char → List Char → Option (Piece × List Char)) :
    Option Char → Nat → List Char → Option (Nat × Piece × List Char)
  | _, _, [] => none
  | prev, i, c :: cs =>
      match test prev (c :: cs) with
      | some (p, rest) => some (i, p, rest)
      | none => searchAux test (some c) (i + 1) cs

/-- Models `re.search` from the start of the remaining text (no preceding char). -/
def searchPat (test : Option Char → List Char → Option (Piece × List Char))
    (s : List Char) : Option (Nat × Piece × List Char) :=
  searchAux test none 0 s

/-- The `match.start() < earliest_pos` scan over the pattern table: a later
pattern replaces the current best only at a strictly earlier start, so on
ties the earlier-listed pattern wins. -/
def pickBest (cands : List (Option (Nat × Piece × List Char))) :
    Option (Nat × Piece × List Char) :=
  cands.foldl
    (fun best c =>
      match best, c with
      | none, c => c
      | some b, none => some b
      | some b, some cc => if cc.1 < b.1 then some cc else some b)
    none

/-- All seven patterns of `_parse_inline`, in the listed order. -/
def findEarliest (s : List Char) : Option (Nat × Piece × List Char) :=
  pickBest
    [searchPat (fun _ => matchImageAt) s,
     searchPat (fun _ => matchLinkAt) s,
     searchPat (fun _ => matchBoldAt '*') s,
     searchPat (fun _ => matchBoldAt '_') s,
     searchPat (matchItalAt '*' flankStar) s,
     searchPat (matchItalAt '_' flankUnd) s,
     searchPat (fun _ => matchCodeAt) s]

/-- An item of the raw `result` list: a bare string or a node. -/
inductive Raw where
  | str (cs : List Char)
  | node (n : JNode)

/-- The clean-up pass of `_parse_inline`: adjacent strings are merged into
one (runs are concatenated left to right) and an empty merged string is
dropped, exactly as the `cleaned` loop behaves.  `acc` is the string run
accumulated so far. -/
def mergeRawAcc : List Char → List Raw → List JNode
  | acc, [] => if acc.isEmpty then [] else [.str (String.mk acc)]
  | acc, .str b :: t => mergeRawAcc (acc ++ b) t
  | acc, .node n :: t =>
      (if acc.isEmpty then [] else [JNode.str (String.mk acc)]) ++ n :: mergeRawAcc [] t

/-- Clean up a raw result list. -/
def mergeRaw (l : List Raw) : List JNode := mergeRawAcc [] l

/-- Clean up and apply the `[""]` fallback for an entirely empty result. -/
def finishInline (r : List Raw) : List JNode :=
  let c := mergeRaw r
  if c.isEmpty then [JNode.str ""] else c

/-- The scanning loop of `_parse_inline`, fuelled: every iteration and
every nested call consumes at least one character, so fuel equal to the
text length (decremented once per call) never runs out.  Emits the text
before the earliest match, the matched element (recursing into bold and
italic content exactly as `_handle_bold`/`_handle_italic` do), and
continues after the match; with no match the remainder is one string. -/
def inlineRaw : Nat → List Char → List Raw
  | _, [] => []
  | 0, _ :: _ => []
  | f + 1, c :: cs =>
      match findEarliest (c :: cs) with
      | none => [.str (c :: cs)]
      | some (pos, piece, rest) =>
          (if 0 < pos then [Raw.str ((c :: cs).take pos)] else []) ++
          (match piece with
           | .img alt url =>
               Raw.node (.objN "img"
                 (some ([("src", String.mk url)] ++
                   (if alt.isEmpty then [] else [("alt", String.mk alt)]))))
           | .lnk txt url =>
               Raw.node (.objC "a" (some [("href", String.mk url)]) [.str (String.mk txt)])
           | .bld content => Raw.node (.objC "b" none (finishInline (inlineRaw f content)))
           | .itl content => Raw.node (.objC "i" none (finishInline (inlineRaw f content)))
           | .cod content => Raw.node (.objC "code" none [.str (String.mk content)])) ::
          inlineRaw f rest

/-- Models `_parse_inline(text)`. -/
def parse_inline (text : String) : List JNode :=
  finishInline (inlineRaw text.toList.length text.toList)

/-- Regex `^[-*_]{3,}$` on the (already stripped) first line. -/
def isHrLine (l : String) : Bool :=
  let cs := l.toList
  3 ≤ cs.length && cs.all (fun c => c = '-' || c = '*' || c = '_')

/-- Regex `^[\-\*\+]\s`. -/
def isBulletStart (l : String) : Bool :=
  match l.toList with
  | c :: d :: _ => (c = '-' || c = '*' || c = '+') && isPySpace d
  | _ => false

/-- Regex `^\d+\.\s`. -/
def isNumStart (l : String) : Bool :=
  let cs := l.toList
  let ds := cs.takeWhile Char.isDigit
  1 ≤ ds.length &&
    (match cs.drop ds.length with
     | '.' :: d :: _ => isPySpace d
     | _ => false)

/-- Regex `^\|?[\s\-:]+\|` on the raw second line of a candidate table. -/
def tableSepMatch (l : String) : Bool :=
  let cs := l.toList
  let t := match cs with
    | '|' :: rest => rest
    | _ => cs
  let r := t.takeWhile (fun c => isPySpace c || c = '-' || c = ':')
  1 ≤ r.length &&
    (match t.drop r.length with
     | '|' :: _ => true
     | _ => false)

/-- Regex `^(#{1,6})\s+(.+)$` on a single (already stripped) line,
returning the marker run length and the group-2 text.  The marker run is
maximal (`#` cannot continue into `\s+`), so seven or more `#` never
match; when everything after the run is whitespace, backtracking leaves
exactly the last whitespace character to `.+`. -/
def headingMatch (l : String) : Option (Nat × String) :=
  let cs := l.toList
  let k := (cs.takeWhile (· = '#')).length
  if 1 ≤ k ∧ k ≤ 6 then
    let rest := cs.drop k
    let w := rest.takeWhile isPySpace
    let r := rest.drop w.length
    if w.length = 0 then none
    else if r.isEmpty = false then some (k, String.mk r)
    else if 2 ≤ w.length then some (k, String.mk [w.getLastD ' '])
    else none
  else none

/-- Models `_process_heading(line)`: no regex match appends nothing; otherwise
levels 1–2 become `h3`, levels 3–6 become `h4`. -/
def process_heading (line : String) : List JNode :=
  match headingMatch line with
  | none => []
  | some (k, text) =>
      [.objC (if k ≤ 2 then "h3" else "h4") none (parse_inline (pyStrip text))]

/-- First test of `_process_code_block`: the stripped line starts with a
triple backtick or tilde. -/
def fenceLineStart (s : String) : Bool :=
  strStartsWith (pyStrip s) "```" || strStartsWith (pyStrip s) "~~~"

/-- Models `_process_code_block(block)`: drop the opening fence line, drop a
trailing fence line, and emit a `pre` node unless the remainder is empty. -/
def process_code_block (block : String) : List JNode :=
  let lines := pySplit '\n' block
  let lines1 := if fenceLineStart (lines.headD "") then lines.tail else lines
  let lines2 :=
    if lines1.isEmpty = false && fenceLineStart (lines1.getLastD "") then lines1.dropLast
    else lines1
  let codeText := joinN lines2
  if codeText = "" then [] else [.objC "pre" none [.str codeText]]

/-- Models `re.sub(r'^>\s?', '', line)`. -/
def stripQuote (l : String) : String :=
  match l.toList with
  | '>' :: d :: rest2 => if isPySpace d then String.mk rest2 else String.mk (d :: rest2)
  | '>' :: [] => ""
  | _ => l

/-- Models `_process_blockquote(block)`. -/
def process_blockquote (block : String) : List JNode :=
  let lines := pySplit '\n' block
  let text := pyStrip (String.intercalate " " (lines.map stripQuote))
  [.objC "blockquote" none (parse_inline text)]

/-- Models `re.sub(r'^[\-\*\+]\s', '', s)`: the match consumes two characters. -/
def stripBullet (s : String) : String :=
  if isBulletStart s then String.mk (s.toList.drop 2) else s

/-- Models `re.sub(r'^\d+\.\s', '', s)`: the match consumes the digits, the dot
and one whitespace character. -/
def stripNum (s : String) : String :=
  if isNumStart s then String.mk (s.toList.drop ((s.toList.takeWhile Char.isDigit).length + 2))
  else s

/-- The item-accumulation loop of `_process_list`. -/
def listItemsGo : List String → List String → List String → List String
  | [], cur, items => items ++ (if cur.isEmpty then [] else [String.intercalate " " cur])
  | l :: ls, cur, items =>
      let t := pyStrip l
      if isBulletStart t || isNumStart t then
        listItemsGo ls [stripNum (stripBullet t)]
          (items ++ (if cur.isEmpty then [] else [String.intercalate " " cur]))
      else
        listItemsGo ls (cur ++ [pyStrip l]) items

/-- Models `_process_list(block)`. -/
def process_list (block : String) : List JNode :=
  let lines := pySplit '\n' block
  let ordered := isNumStart (pyStrip (lines.headD ""))
  let items := listItemsGo lines [] []
  [.objC (if ordered then "ol" else "ul") none
    (items.map (fun it => JNode.objC "li" none (parse_inline it)))]

/-- Models `_parse_table_row(line)`. -/
def parseTableRow (line : String) : List String :=
  let l := pyStrip line
  let l1 := if strStartsWith l "|" then l.drop 1 else l
  let l2 := if strEndsWith l1 "|" then l1.dropRight 1 else l1
  (pySplit '|' l2).map pyStrip

/-- Models `_process_table(block)`: header cells become one bold paragraph, data
rows an unordered list. -/
def process_table (block : String) : List JNode :=
  let lines := pySplit '\n' block
  let headerCells := parseTableRow (lines.headD "")
  let dataRows := ((lines.drop 2).filter (fun l => pyStrip l ≠ "")).map parseTableRow
  (if headerCells.isEmpty then [] else
    [JNode.objC "p" none [.objC "b" none [.str (String.intercalate " | " headerCells)]]]) ++
  (if dataRows.isEmpty then [] else
    [JNode.objC "ul" none
      (dataRows.map (fun row => JNode.objC "li" none (parse_inline (String.intercalate " | " row))))])

/-- Models `_process_paragraph(block)`: lines stripped and joined with single
spaces, dropped when empty after the final strip. -/
def process_paragraph (block : String) : List JNode :=
  let text := pyStrip (String.intercalate " " ((pySplit '\n' block).map pyStrip))
  if text = "" then [] else [.objC "p" none (parse_inline text)]

/-- Models `_process_block(block)`: the dispatch chain, first match wins, in the
exact order of the code. -/
def process_block (block : String) : List JNode :=
  let lines := pySplit '\n' block
  let firstLine := pyStrip (lines.headD "")
  if strStartsWith firstLine "```" || strStartsWith firstLine "~~~" then process_code_block block
  else if strStartsWith firstLine "#" then process_heading firstLine
  else if isHrLine firstLine then [hrNode]
  else if strStartsWith firstLine ">" then process_blockquote block
  else if isBulletStart firstLine || isNumStart firstLine then process_list block
  else if strContainsChar firstLine '|' && decide (1 < lines.length) && tableSepMatch (lines.getD 1 "")
    then process_table block
  else process_paragraph block

/-- Models `markdown_to_nodes` / `MarkdownToTelegraphConverter.convert`: normalize
line endings, segment into blocks, classify each non-blank block. -/
def markdown_to_nodes (markdown : String) : List JNode :=
  let md := String.mk (normNL markdown.toList)
  (split_blocks md).foldl (fun acc b => if pyStrip b = "" then acc else acc ++ process_block b) []

/-- One external Telegraph API call performed by the multi-part branch of
`cmd_publish` (payload contents are not recorded in the trace). -/
inductive ApiCall where
  | create (i : Nat) (title : String)
  | edit (i : Nat) (path : String) (title : String)
  deriving DecidableEq, Repr

/-- The structured JSON outcome printed by the multi-part branch of
`cmd_publish`: either the failure object (its error message) or the
success object with the part count, all URLs and the main URL. -/
inductive PubReport where
  | failure (msg : String)
  | success (partsCount : Nat) (urls : List String) (mainUrl : String)
  deriving DecidableEq, Repr

/-- Models `f"{args.title} (часть {i + 1})" if i > 0 else args.title`. -/
def partTitle (title : String) (i : Nat) : String :=
  if 0 < i then title ++ " (часть " ++ toString (i + 1) ++ ")" else title

/-- The placeholder-creation loop of `cmd_publish`: on the first failing
`create_page` the loop aborts with the error object's message and the
calls made so far; otherwise it collects URLs (the path prefixed with the
Telegraph origin) and paths, in chunk order. -/
def createPhase (title : String) (createRes : Nat → Except String String) :
    Nat → List (List JNode) → Except (String × List ApiCall) (List String × List String × List ApiCall)
  | _, [] => .ok ([], [], [])
  | i, _ :: ps =>
      match createRes i with
      | .error e =>
          .error ("Failed to create part " ++ toString (i + 1) ++ ": " ++ e,
            [.create i (partTitle title i)])
      | .ok path =>
          match createPhase title createRes (i + 1) ps with
          | .error (m, calls) => .error (m, .create i (partTitle title i) :: calls)
          | .ok (us, pas, calls) =>
              .ok (("https://telegra.ph/" ++ path) :: us, path :: pas,
                .create i (partTitle title i) :: calls)

/-- The relinking loop of `cmd_publish`: one `edit_page` call per
`zip(paths, parts_with_nav)` entry.  The code discards every edit result,
so the loop only contributes calls to the trace. -/
def editPhase (title : String) : Nat → List (String × List JNode) → List ApiCall
  | _, [] => []
  | i, (path, _) :: t => .edit i path (partTitle title i) :: editPhase title (i + 1) t

/-- The multi-part branch of `cmd_publish`, as a function of the chunks
and of oracles giving each `create_page`/`edit_page` outcome (path on
success, error message on failure).  Returns the printed report and the
trace of API calls issued.  `editRes` is deliberately unused: the code
never inspects `edit_page`'s return value. -/
def publishMulti (title : String) (parts : List (List JNode))
    (createRes : Nat → Except String String) (editRes : Nat → Except String String) :
    PubReport × List ApiCall :=
  match createPhase title createRes 0 parts with
  | .error (msg, calls) => (.failure msg, calls)
  | .ok (urls, paths, calls) =>
      let nav := add_navigation_links parts urls title
      (.success parts.length urls (urls.headD ""), calls ++ editPhase title 0 (paths.zip nav))

/-- The string of 6550 `a`s used in the partitioner counterexample. -/
def bigStr : String := String.mk (List.replicate 6550 'a')

/-- Eleven text nodes of 6552 serialized bytes each: total 72094 bytes,
so the partitioner splits, and its first chunk of ten nodes serializes to
65540 bytes. -/
def oversizeContent : List JNode := List.replicate 11 (JNode.str bigStr)

/-- The create calls issued for parts `i` through `i + j`, in order. -/
def createCalls (title : String) (i j : Nat) : List ApiCall :=
  (List.range (j + 1)).map (fun k => .create (i + k) (partTitle title (i + k)))

theorem escLen_a : escLen 'a' = 1 := by decide

theorem bigStr_toList : bigStr.toList = List.replicate 6550 'a' := rfl

theorem strJsonSize_bigStr : strJsonSize bigStr = 6552 := by
  unfold strJsonSize
  rw [bigStr_toList, List.map_replicate, escLen_a, List.sum_replicate]
  simp

theorem nodeJsonSize_bigStr : nodeJsonSize (JNode.str bigStr) = 6552 := by
  rw [nodeJsonSize, strJsonSize_bigStr]

theorem splitGo_flatten (maxSize : Nat) (t : List JNode) :
    ∀ (parts : List (List JNode)) (cur : List JNode) (cs : Nat),
      (splitGo maxSize t parts cur cs).flatten = parts.flatten ++ cur ++ t := by
  induction t with
  | nil =>
      intro parts cur cs
      simp only [splitGo]
      by_cases h : cur = [] <;> simp [h]
  | cons n t ih =>
      intro parts cur cs
      simp only [splitGo]
      by_cases h : maxSize < cs + (nodeJsonSize n + 1) ∧ cur.isEmpty = false
      · rw [if_pos h, ih]; simp
      · rw [if_neg h, ih]; simp

/-- C6 — concatenating the chunks of `split_content_for_publishing`, in
order, reproduces the original top-level node list exactly: the greedy
loop only ever moves each node, once and in order, into some chunk. -/
theorem c6_partition_concat (content : List JNode) (maxSize : Nat) :
    (split_content_for_publishing content maxSize).flatten = content := by
  unfold split_content_for_publishing
  by_cases h : estimate_content_size content ≤ maxSize <;>
    simp [h, splitGo_flatten]

theorem pyStripList_cons (c : Char) (l : List Char) (h : isPySpace c = false) :
    pyStripList (c :: l) = c :: (l.reverse.dropWhile isPySpace).reverse := by
  unfold pyStripList
  rw [List.dropWhile_cons, if_neg (by simp [h]), List.reverse_cons, List.dropWhile_append]
  by_cases he : (l.reverse.dropWhile isPySpace).isEmpty
  · rw [if_pos he, List.dropWhile_cons, if_neg (by simp [h])]
    simp [List.isEmpty_iff.mp he]
  · rw [if_neg he]
    simp

theorem openFenceChar_backtick_or_tilde {l : String} {c : Char}
    (h : openFenceChar l = some c) : c = '`' ∨ c = '~' := by
  unfold openFenceChar at h
  split at h
  · exact absurd h (by simp)
  · split at h
    · rename_i hcond
      injection h with h2
      subst h2
      simp only [Bool.and_eq_true, Bool.or_eq_true, decide_eq_true_eq] at hcond
      exact hcond.1.1
    · exact absurd h (by simp)

theorem isCloseFence_marker_false (fc : Char) (hfc : fc = '`' ∨ fc = '~') (l : String)
    (h : pyStrip l = "" ∨ (∃ t, l.toList = '#' :: t) ∨ (∃ t, l.toList = '-' :: t) ∨
      (∃ t, l.toList = '>' :: t)) :
    isCloseFence fc l = false := by
  unfold isCloseFence
  rcases h with h | ⟨t, ht⟩ | ⟨t, ht⟩ | ⟨t, ht⟩
  · have he : pyStripList l.toList = [] := by
      have h2 := congrArg String.toList h
      simpa [pyStrip] using h2
    simp [show pyStripList l.data = [] from he]
  · rw [ht, pyStripList_cons _ _ (by decide)]
    rcases hfc with h | h <;> subst h <;> simp
  · rw [ht, pyStripList_cons _ _ (by decide)]
    rcases hfc with h | h <;> subst h <;> simp
  · rw [ht, pyStripList_cons _ _ (by decide)]
    rcases hfc with h | h <;> subst h <;> simp

theorem stepLine_open (st : SState) (l : String) (c : Char) (hin : st.inCode = false)
    (hc : openFenceChar l = some c) :
    stepLine st l = ⟨st.blocks ++ flushIf st.cur, [l], true, c⟩ := by
  obtain ⟨b, cur, ic, f⟩ := st
  cases hin
  simp [stepLine, hc]

theorem stepLine_code (st : SState) (l : String) (hin : st.inCode = true) :
    stepLine st l =
      if isCloseFence st.fc l then ⟨st.blocks ++ [joinN (st.cur ++ [l])], [], false, st.fc⟩
      else ⟨st.blocks, st.cur ++ [l], true, st.fc⟩ := by
  obtain ⟨b, cur, ic, f⟩ := st
  cases hin
  cases hoc : openFenceChar l <;> simp [stepLine, hoc]

theorem foldl_stepLine_body (body : List String) :
    ∀ (st : SState), st.inCode = true → (∀ l ∈ body, isCloseFence st.fc l = false) →
      body.foldl stepLine st = ⟨st.blocks, st.cur ++ body, true, st.fc⟩ := by
  induction body with
  | nil =>
      intro st h _
      obtain ⟨b, cur, ic, f⟩ := st
      cases h
      simp
  | cons l ls ih =>
      intro st h hb
      rw [List.foldl_cons, stepLine_code st l h, if_neg (by simp [hb l (by simp)])]
      rw [ih ⟨st.blocks, st.cur ++ [l], true, st.fc⟩ rfl (fun x hx => hb x (by simp [hx]))]
      simp

theorem stepLine_blocks (b cur : List String) (ic : Bool) (f : Char) (l : String) :
    stepLine ⟨b, cur, ic, f⟩ l =
      ⟨b ++ (stepLine ⟨[], cur, ic, f⟩ l).blocks, (stepLine ⟨[], cur, ic, f⟩ l).cur,
        (stepLine ⟨[], cur, ic, f⟩ l).inCode, (stepLine ⟨[], cur, ic, f⟩ l).fc⟩ := by
  cases hoc : openFenceChar l <;> cases ic <;>
    simp [stepLine, hoc] <;> split <;> simp

theorem foldl_stepLine_blocks (ls : List String) :
    ∀ (b cur : List String) (ic : Bool) (f : Char),
      ls.foldl stepLine ⟨b, cur, ic, f⟩ =
        ⟨b ++ (ls.foldl stepLine ⟨[], cur, ic, f⟩).blocks,
          (ls.foldl stepLine ⟨[], cur, ic, f⟩).cur,
          (ls.foldl stepLine ⟨[], cur, ic, f⟩).inCode,
          (ls.foldl stepLine ⟨[], cur, ic, f⟩).fc⟩ := by
  induction ls with
  | nil => intro b cur ic f; simp
  | cons l ls ih =>
      intro b cur ic f
      simp only [List.foldl_cons]
      rw [stepLine_blocks]
      rcases hst : stepLine ⟨[], cur, ic, f⟩ l with ⟨b1, c1, i1, f1⟩
      rw [ih (b ++ b1) c1 i1 f1, ih b1 c1 i1 f1]
      simp

/-- C2 — the segmenter keeps a whole fenced code block (opening fence line
through closing fence line) as exactly one emitted block, even when the
fence body contains blank lines or lines starting with `#`, `-` or `>`:
inside an open fence, only a closing fence line can end the block. -/
theorem c2_fence_one_block (text : String) (pre : List String) (opn : String)
    (body : List String) (close : String) (rest : List String) (fc : Char)
    (hsplit : pySplit '\n' text = pre ++ opn :: (body ++ close :: rest))
    (hpre : (pre.foldl stepLine ⟨[], [], false, ' '⟩).inCode = false)
    (hopn : openFenceChar opn = some fc)
    (hbody : ∀ l ∈ body, pyStrip l = "" ∨ (∃ t, l.toList = '#' :: t) ∨
      (∃ t, l.toList = '-' :: t) ∨ (∃ t, l.toList = '>' :: t))
    (hclose : isCloseFence fc close = true) :
    ∃ bs1 bs2, split_blocks text = bs1 ++ joinN (opn :: (body ++ [close])) :: bs2 := by
  have hfc2 : fc = '`' ∨ fc = '~' := openFenceChar_backtick_or_tilde hopn
  have hnc : ∀ l ∈ body, isCloseFence fc l = false := fun l hl =>
    isCloseFence_marker_false fc hfc2 l (hbody l hl)
  unfold split_blocks splitBlocksRun
  rw [hsplit, List.foldl_append, List.foldl_cons,
    stepLine_open _ opn fc hpre hopn, List.foldl_append,
    foldl_stepLine_body body _ rfl (by simpa using hnc), List.foldl_cons,
    stepLine_code _ close rfl, if_pos (by simpa using hclose)]
  rcases hr : rest.foldl stepLine ⟨[], [], false, fc⟩ with ⟨rb, rc, ri, rf⟩
  rw [show (⟨(pre.foldl stepLine ⟨[], [], false, ' '⟩).blocks ++
      flushIf (pre.foldl stepLine ⟨[], [], false, ' '⟩).cur ++
      [joinN ([opn] ++ body ++ [close])], [], false, fc⟩ : SState) =
      ⟨((pre.foldl stepLine ⟨[], [], false, ' '⟩).blocks ++
        flushIf (pre.foldl stepLine ⟨[], [], false, ' '⟩).cur ++
        [joinN ([opn] ++ body ++ [close])]) ++ [], [], false, fc⟩ from by simp,
    foldl_stepLine_blocks, hr]
  refine ⟨(pre.foldl stepLine ⟨[], [], false, ' '⟩).blocks ++
    flushIf (pre.foldl stepLine ⟨[], [], false, ' '⟩).cur, rb ++ flushIf rc, ?_⟩
  simp

/-- Witness for C2 at a concrete input: a fence whose body has a blank
line, a heading line, a list line and a quote line comes out as one block. -/
theorem c2_fence_one_block_witness :
    ∃ bs1 bs2, split_blocks "x\n\n```\n\n# h\n- i\n> q\n```\ntail" =
      bs1 ++ "```\n\n# h\n- i\n> q\n```" :: bs2 := by
  have h := c2_fence_one_block "x\n\n```\n\n# h\n- i\n> q\n```\ntail"
    ["x", ""] "```" ["", "# h", "- i", "> q"] "```" ["tail"] '`'
    (by decide) (by decide) (by decide)
    (by
      intro l hl
      fin_cases hl
      · left; rfl
      · right; left; exact ⟨_, rfl⟩
      · right; right; left; exact ⟨_, rfl⟩
      · right; right; right; exact ⟨_, rfl⟩)
    (by decide)
  exact h

/-- Counterexample to C7 as stated: the fence opened by five tildes is
closed by a bare three-tilde line — the code never compares the closing
run's length with the opening run's length — so `"x"` becomes a separate
block instead of staying inside a single still-open fence block. -/
theorem c7_counterexample :
    split_blocks "~~~~~\n~~~\nx" = ["~~~~~\n~~~", "x"] ∧
    split_blocks "~~~~~\n~~~\nx" ≠ ["~~~~~\n~~~\nx"] := by
  exact ⟨by decide, by decide⟩

/-- C7 (amended) — once a fence is open, lines that are not a closing
fence (the stripped line being at least three copies of the fence
character, with no reference to the opening run's length) are appended to
the open block without emitting any boundary, and the first closing fence
line emits the accumulated fence as one block and turns the flag off. -/
theorem c7_close_any_three_same_char (fc : Char) (body : List String) (close : String)
    (st : SState) (hin : st.inCode = true) (hfc : st.fc = fc)
    (hbody : ∀ l ∈ body, isCloseFence fc l = false)
    (hclose : isCloseFence fc close = true) :
    body.foldl stepLine st = ⟨st.blocks, st.cur ++ body, true, fc⟩ ∧
    stepLine (⟨st.blocks, st.cur ++ body, true, fc⟩ : SState) close =
      ⟨st.blocks ++ [joinN (st.cur ++ body ++ [close])], [], false, fc⟩ := by
  constructor
  · rw [foldl_stepLine_body body st hin (by rw [hfc]; exact hbody), hfc]
  · rw [stepLine_code _ close rfl, if_pos (by simpa using hclose)]

/-- Witness for C7 (amended): a fence opened with four backticks absorbs a
heading line and a blank line, and a three-backtick line closes it. -/
theorem c7_close_any_three_same_char_witness :
    (["# x", ""].foldl stepLine (⟨[], ["````"], true, '`'⟩ : SState) =
      ⟨[], ["````", "# x", ""], true, '`'⟩) ∧
    stepLine (⟨[], ["````", "# x", ""], true, '`'⟩ : SState) "```" =
      ⟨["````\n# x\n\n```"], [], false, '`'⟩ := by
  have h := c7_close_any_three_same_char '`' ["# x", ""] "```" ⟨[], ["````"], true, '`'⟩
    rfl rfl (by decide) (by decide)
  exact h

/-- C1 — the partitioner's budget guarantee fails: on eleven 6552-byte
text nodes (none of which alone exceeds the 65536-byte budget) the greedy
loop, which accounts one byte per separator while `json.dumps` emits two,
produces a first chunk of ten nodes whose serialized size is 65540 bytes,
over the budget — contradicting the function's stated contract that every
returned part is under `max_size`. -/
theorem c1_chunk_exceeds_budget :
    split_content_for_publishing oversizeContent MAX_CONTENT_SIZE =
      [List.replicate 10 (JNode.str bigStr), [JNode.str bigStr]] ∧
    estimate_content_size (List.replicate 10 (JNode.str bigStr)) = 65540 ∧
    MAX_CONTENT_SIZE < 65540 ∧
    nodeJsonSize (JNode.str bigStr) = 6552 := by
  have h10 : estimate_content_size (List.replicate 10 (JNode.str bigStr)) = 65540 := by
    simp only [estimate_content_size, show (10 : Nat) = 9 + 1 from rfl, List.replicate_succ]
    norm_num [nodeSizes, joinSizes, nodeJsonSize_bigStr, List.replicate]
  refine ⟨?_, h10, by norm_num [MAX_CONTENT_SIZE], nodeJsonSize_bigStr⟩
  have h11 : estimate_content_size oversizeContent = 72094 := by
    simp only [estimate_content_size, oversizeContent,
      show (11 : Nat) = 10 + 1 from rfl, List.replicate_succ]
    norm_num [nodeSizes, joinSizes, nodeJsonSize_bigStr, List.replicate]
  unfold split_content_for_publishing
  rw [h11]
  norm_num [MAX_CONTENT_SIZE, oversizeContent, splitGo, nodeJsonSize_bigStr, List.replicate]

/-- Counterexample to C3 as stated: tokenizing `**a *b* c**` does not
produce a bold node at all — the bold pattern's content class `[^*]+`
cannot span the inner `*`, so only the italic `*b*` matches and the double
asterisks are left as literal text. -/
theorem c3_counterexample :
    parse_inline "**a *b* c**" ≠
      [JNode.objC "b" none [.str "a ", .objC "i" none [.str "b"], .str " c"]] := by
  intro h
  rw [show parse_inline "**a *b* c**" =
    [JNode.str "**a ", .objC "i" none [.str "b"], .str " c**"] from rfl] at h
  simp at h

/-- C3 (amended) — tokenizing `**a *b* c**` yields
`[Text "**a ", Italic [Text "b"], Text " c**"]` (no bold forms, because the
bold pattern's `[^*]+` cannot contain `*`); recursive nesting of italic
inside bold does hold for the underscore form: `**a _b_ c**` yields exactly
one bold node with children `[Text "a ", Italic [Text "b"], Text " c"]`. -/
theorem c3_inline_nesting :
    parse_inline "**a *b* c**" =
      [JNode.str "**a ", .objC "i" none [.str "b"], .str " c**"] ∧
    parse_inline "**a _b_ c**" =
      [JNode.objC "b" none [.str "a ", .objC "i" none [.str "b"], .str " c"]] :=
  ⟨rfl, rfl⟩

/-- C10 — a fenced code block whose body is empty after removing the
opening and the closing fence line produces no node at all: `code_text` is
empty, and the `pre` node is only appended for non-empty text. -/
theorem c10_empty_fence_no_node (block l1 l2 : String)
    (hsplit : pySplit '\n' block = [l1, l2])
    (h1 : fenceLineStart l1 = true) (h2 : fenceLineStart l2 = true) :
    process_block block = [] := by
  have h1' := h1
  unfold fenceLineStart at h1'
  unfold process_block process_code_block
  rw [hsplit]
  simp [h1', h1, h2, joinN, String.intercalate]

/-- Witness for C10: the two-line input consisting only of an empty fence
converts to the empty document. -/
theorem c10_empty_fence_no_node_witness :
    process_block "```\n```" = [] ∧ markdown_to_nodes "```\n```" = [] :=
  ⟨c10_empty_fence_no_node "```\n```" "```" "```" (by decide) (by decide) (by decide),
   by rfl⟩

/-- Counterexample to C8 as stated: the block `#NoSpace` is not rendered
as a paragraph — it starts with `#`, so it is dispatched to the heading
handler, whose regex does not match, and nothing is emitted. -/
theorem c8_counterexample :
    markdown_to_nodes "#NoSpace" = [] ∧
    markdown_to_nodes "#NoSpace" ≠ [JNode.objC "p" none [.str "#NoSpace"]] := by
  refine ⟨rfl, ?_⟩
  intro h
  rw [show markdown_to_nodes "#NoSpace" = [] from rfl] at h
  simp at h

/-- C8 (amended) — the classifier dispatches by first match in the fixed
order; a block whose first line starts with `#` but fails the heading
regex is sent to the heading handler, which emits nothing (the block is
dropped, not rendered as a paragraph); a block matching none of the six
earlier checks is rendered by the paragraph handler. -/
theorem c8_dispatch (block firstLine : String)
    (hfl : pyStrip ((pySplit '\n' block).headD "") = firstLine) :
    (strStartsWith firstLine "```" = false → strStartsWith firstLine "~~~" = false →
     strStartsWith firstLine "#" = true → headingMatch firstLine = none →
     process_block block = []) ∧
    (strStartsWith firstLine "```" = false → strStartsWith firstLine "~~~" = false →
     strStartsWith firstLine "#" = false → isHrLine firstLine = false →
     strStartsWith firstLine ">" = false → isBulletStart firstLine = false →
     isNumStart firstLine = false →
     (strContainsChar firstLine '|' && decide (1 < (pySplit '\n' block).length) &&
       tableSepMatch ((pySplit '\n' block).getD 1 "")) = false →
     process_block block = process_paragraph block) := by
  constructor
  · intro hf1 hf2 hh hm
    simp only [process_block]
    rw [hfl]
    simp [hf1, hf2, hh, process_heading, hm]
  · intro hf1 hf2 hh hhr hq hb hn ht
    simp only [process_block]
    rw [hfl]
    simp [hf1, hf2, hh, hhr, hq, hb, hn, ht]
    intro h1 h2 h3
    rw [List.getD_eq_getElem?_getD] at ht
    simp only [List.getElem?_eq_getElem h2, Option.getD_some] at ht h3
    rw [h3] at ht
    simp at ht
    exact absurd (ht h1) (by omega)

/-- Witness for C8 (amended): `#NoSpace` is dropped; the two-line block
`hello`/`world` is rendered as one paragraph with the lines joined by a
single space. -/
theorem c8_dispatch_witness :
    process_block "#NoSpace" = [] ∧
    process_block "hello\nworld" = [JNode.objC "p" none [.str "hello world"]] := by
  constructor
  · exact (c8_dispatch "#NoSpace" "#NoSpace" (by decide)).1
      (by decide) (by decide) (by decide) (by decide)
  · have h := (c8_dispatch "hello\nworld" "hello" (by decide)).2
      (by decide) (by decide) (by decide) (by decide) (by decide) (by decide) (by decide)
      (by decide)
    rw [h]
    decide

/-- Counterexample to C9 as stated: the navigation labels the code inserts
are the Russian strings `Часть … из …`, `← Назад`, `… (начало)` and
`Далее →`, not `Part … of …`, `← Back`, `… (start)` and `Next →`: on two
chunks, chunk 1's actual value differs from the one the claim predicts. -/
theorem c9_counterexample :
    (add_navigation_links [[hrNode], [hrNode]] ["u0", "u1"] "T").getD 1 [] =
      [navHeader 1 2, hrNode, hrNode,
        JNode.objC "p" none [aNode "u0" "← Назад", .str " | ", aNode "u0" "T (начало)"]] ∧
    navHeader 1 2 = JNode.objC "p" none [.objC "i" none [.str "Часть 2 из 2"]] ∧
    (add_navigation_links [[hrNode], [hrNode]] ["u0", "u1"] "T").getD 1 [] ≠
      [JNode.objC "p" none [.objC "i" none [.str "Part 2 of 2"]], hrNode, hrNode,
        JNode.objC "p" none [aNode "u0" "← Back", .str " | ", aNode "u0" "T (start)"]] := by
  exact ⟨by decide, by decide, by decide⟩

theorem navAux_length (urls : List String) (title : String) (n : Nat) :
    ∀ (ps : List (List JNode)) (i : Nat), (navAux urls title n i ps).length = ps.length := by
  intro ps
  induction ps with
  | nil => intro i; rfl
  | cons p t ih => intro i; simp [navAux, ih]

theorem navAux_getD (urls : List String) (title : String) (n : Nat) :
    ∀ (ps : List (List JNode)) (i k : Nat), k < ps.length →
      (navAux urls title n i ps).getD k [] = navPart urls title n (i + k) (ps.getD k []) := by
  intro ps
  induction ps with
  | nil => intro i k h; simp at h
  | cons p t ih =>
      intro i k h
      cases k with
      | zero => simp [navAux]
      | succ k =>
          have h' : k < t.length := by simpa using h
          simp only [navAux, List.getD_cons_succ]
          rw [ih (i + 1) k h']
          congr 1
          omega

/-- C9 (amended) — for `N ≥ 2` chunks and `N` URLs in chunk order, chunk
`i` of the linker's output is the original chunk with one prepended
paragraph holding an italic `Часть i+1 из N` label, and an appended
horizontal rule plus one paragraph holding, in order: a `← Назад` link to
`urls[i-1]` and a separator only when `i > 0`; a `{title} (начало)` link
to `urls[0]` always; and a separator and `Далее →` link to `urls[i+1]`
only when `i < N-1` — so chunk 0 has no back link and chunk `N-1` has no
forward link. -/
theorem c9_nav_structure (parts : List (List JNode)) (urls : List String) (title : String)
    (i : Nat) (h2 : 2 ≤ parts.length) (hu : urls.length = parts.length)
    (hi : i < parts.length) :
    (add_navigation_links parts urls title).length = parts.length ∧
    (add_navigation_links parts urls title).getD i [] =
      navHeader i parts.length :: parts.getD i [] ++
        [hrNode, JNode.objC "p" none (
          (if 0 < i then [aNode (urls.getD (i - 1) "") "← Назад", .str " | "] else []) ++
          [aNode (urls.getD 0 "") (title ++ " (начало)")] ++
          (if i < parts.length - 1 then [.str " | ", aNode (urls.getD (i + 1) "") "Далее →"]
           else []))] := by
  unfold add_navigation_links
  rw [if_neg (by omega)]
  refine ⟨navAux_length urls title parts.length parts 0, ?_⟩
  rw [navAux_getD urls title parts.length parts 0 i hi, Nat.zero_add]
  rfl

/-- Witness for C9 (amended) at the spec's own test vector `N = 3`:
chunk 1 carries a back link to `u0`, the start link to `u0` and a forward
link to `u2`. -/
theorem c9_nav_structure_witness :
    (add_navigation_links [[hrNode], [hrNode], [hrNode]] ["u0", "u1", "u2"] "T").length = 3 ∧
    (add_navigation_links [[hrNode], [hrNode], [hrNode]] ["u0", "u1", "u2"] "T").getD 1 [] =
      navHeader 1 3 :: [hrNode] ++
        [hrNode, JNode.objC "p" none
          ([aNode "u0" "← Назад", .str " | "] ++ [aNode "u0" "T (начало)"] ++
           [.str " | ", aNode "u2" "Далее →"])] := by
  have h := c9_nav_structure [[hrNode], [hrNode], [hrNode]] ["u0", "u1", "u2"] "T" 1
    (by decide) (by decide) (by decide)
  exact ⟨h.1, by rw [h.2]; decide⟩

theorem createCalls_succ (title : String) (i j : Nat) :
    createCalls title i (j + 1) = .create i (partTitle title i) :: createCalls title (i + 1) j := by
  unfold createCalls
  rw [List.range_succ_eq_map, List.map_cons, List.map_map]
  congr 1
  apply List.map_congr_left
  intro a ha
  simp only [Function.comp_apply]
  rw [show Nat.succ a = a + 1 from rfl, show i + (a + 1) = i + 1 + a by omega]

theorem createPhase_fail (title : String) (createRes : Nat → Except String String) (e : String) :
    ∀ (j : Nat) (parts : List (List JNode)) (i : Nat),
      (∀ k, k < j → ∃ p, createRes (i + k) = .ok p) →
      createRes (i + j) = .error e → j < parts.length →
      createPhase title createRes i parts =
        .error ("Failed to create part " ++ toString (i + j + 1) ++ ": " ++ e,
          createCalls title i j) := by
  intro j
  induction j with
  | zero =>
      intro parts i hok he hlt
      cases parts with
      | nil => simp at hlt
      | cons p ps =>
          rw [Nat.add_zero] at he
          simp [createPhase, he, createCalls, List.range_succ]
  | succ j ih =>
      intro parts i hok he hlt
      cases parts with
      | nil => simp at hlt
      | cons p ps =>
          obtain ⟨p0, hp0⟩ := hok 0 (by omega)
          rw [Nat.add_zero] at hp0
          have hok' : ∀ k, k < j → ∃ q, createRes (i + 1 + k) = .ok q := by
            intro k hk
            obtain ⟨q, hq⟩ := hok (k + 1) (by omega)
            exact ⟨q, by rwa [show i + (k + 1) = i + 1 + k by omega] at hq⟩
          have he' : createRes (i + 1 + j) = .error e := by
            rwa [show i + (j + 1) = i + 1 + j by omega] at he
          have hlt' : j < ps.length := by simpa using hlt
          simp only [createPhase, hp0]
          rw [ih ps (i + 1) hok' he' hlt', createCalls_succ]
          rw [show i + 1 + j = i + (j + 1) by omega]

/-- Counterexample to C4 as stated: the failure report does not include
the already-created pages' paths or URLs — two runs that differ only in
the path Telegraph assigned to the successfully created part 1 produce
the exact same failure report, so the report cannot be carrying it. -/
theorem c4_counterexample :
    (publishMulti "T" [[hrNode], [hrNode]]
        (fun i => if i = 0 then .ok "p0" else .error "boom") (fun _ => .ok "")).1 =
      .failure "Failed to create part 2: boom" ∧
    (publishMulti "T" [[hrNode], [hrNode]]
        (fun i => if i = 0 then .ok "p0" else .error "boom") (fun _ => .ok "")).1 =
    (publishMulti "T" [[hrNode], [hrNode]]
        (fun i => if i = 0 then .ok "qZ" else .error "boom") (fun _ => .ok "")).1 := by
  exact ⟨by decide, by decide⟩

/-- C4 (amended) — when the `j`-th placeholder create fails after `j`
successes, the multi-part publish reports overall failure naming part
`j + 1` (from which the number of created parts follows), only the
`j + 1` create calls were issued, and the relink phase is never attempted
— no edit call appears in the trace; the failure report does not carry
the created pages' paths or URLs. -/
theorem c4_create_failure_aborts (title : String) (parts : List (List JNode))
    (createRes editRes : Nat → Except String String) (j : Nat) (e : String)
    (hN : 2 ≤ parts.length) (hj : j < parts.length)
    (hok : ∀ k, k < j → ∃ p, createRes k = .ok p)
    (he : createRes j = .error e) :
    publishMulti title parts createRes editRes =
      (.failure ("Failed to create part " ++ toString (j + 1) ++ ": " ++ e),
        createCalls title 0 j) ∧
    ∀ i path t2, ApiCall.edit i path t2 ∉ (publishMulti title parts createRes editRes).2 := by
  have hcp := createPhase_fail title createRes e j parts 0
    (fun k hk => by simpa using hok k hk) (by simpa using he) hj
  constructor
  · unfold publishMulti
    rw [hcp]
    simp
  · intro i2 path t2 hmem
    unfold publishMulti at hmem
    rw [hcp] at hmem
    simp [createCalls] at hmem

/-- Witness for C4 (amended): two parts, part 2's create fails. -/
theorem c4_create_failure_aborts_witness :
    publishMulti "T" [[hrNode], [hrNode]]
        (fun i => if i = 0 then .ok "p0" else .error "boom") (fun _ => .ok "") =
      (.failure "Failed to create part 2: boom", createCalls "T" 0 1) :=
  (c4_create_failure_aborts "T" [[hrNode], [hrNode]]
    (fun i => if i = 0 then .ok "p0" else .error "boom") (fun _ => .ok "") 1 "boom"
    (by decide) (by decide)
    (fun k hk => ⟨"p0", by
      have hk0 : k = 0 := by omega
      subst hk0
      rfl⟩)
    rfl).1

theorem add_navigation_links_length (parts : List (List JNode)) (urls : List String)
    (title : String) : (add_navigation_links parts urls title).length = parts.length := by
  unfold add_navigation_links
  split
  · rfl
  · exact navAux_length urls title parts.length parts 0

theorem createPhase_ok (title : String) (createRes : Nat → Except String String)
    (path : Nat → String) :
    ∀ (parts : List (List JNode)) (i : Nat),
      (∀ k, k < parts.length → createRes (i + k) = .ok (path (i + k))) →
      createPhase title createRes i parts =
        .ok ((List.range parts.length).map (fun k => "https://telegra.ph/" ++ path (i + k)),
             (List.range parts.length).map (fun k => path (i + k)),
             (List.range parts.length).map (fun k => .create (i + k) (partTitle title (i + k)))) := by
  intro parts
  induction parts with
  | nil => intro i h; simp [createPhase]
  | cons p ps ih =>
      intro i h
      have h0 : createRes i = .ok (path i) := by
        have h1 := h 0 (by simp)
        rwa [Nat.add_zero] at h1
      have hrest : ∀ k, k < ps.length → createRes (i + 1 + k) = .ok (path (i + 1 + k)) := by
        intro k hk
        have h1 := h (k + 1) (by simpa using Nat.succ_lt_succ hk)
        rwa [show i + (k + 1) = i + 1 + k by omega] at h1
      simp only [createPhase, h0]
      rw [ih (i + 1) hrest]
      simp only [List.length_cons, List.range_succ_eq_map, List.map_cons, List.map_map]
      refine congrArg Except.ok ?_
      refine congrArg₂ Prod.mk ?_ (congrArg₂ Prod.mk ?_ ?_) <;>
        (first
          | (refine congrArg₂ List.cons (by rw [Nat.add_zero]) ?_
             apply List.map_congr_left
             intro a ha
             simp only [Function.comp_apply]
             rw [show Nat.succ a = a + 1 from rfl, show i + (a + 1) = i + 1 + a by omega]))

theorem editPhase_zip (title : String) :
    ∀ (ps : List String) (nav : List (List JNode)) (i : Nat), ps.length = nav.length →
      editPhase title i (ps.zip nav) =
        (List.range ps.length).map
          (fun k => .edit (i + k) (ps.getD k "") (partTitle title (i + k))) := by
  intro ps
  induction ps with
  | nil => intro nav i h; simp [editPhase]
  | cons p pt ih =>
      intro nav i h
      cases nav with
      | nil => simp at h
      | cons n nt =>
          simp only [List.zip_cons_cons, editPhase]
          rw [show List.zipWith Prod.mk pt nt = pt.zip nt from rfl,
            ih nt (i + 1) (by simpa using h)]
          simp only [List.length_cons, List.range_succ_eq_map, List.map_cons, List.map_map]
          refine congrArg₂ List.cons (by rw [Nat.add_zero]; rfl) ?_
          apply List.map_congr_left
          intro a ha
          simp only [Function.comp_apply]
          rw [show Nat.succ a = a + 1 from rfl, show i + (a + 1) = i + 1 + a by omega,
            List.getD_cons_succ]

/-- Counterexample to C5 as stated: edit failures are not collected and
the final report does not enumerate per-part success or failure — a run
whose every relink edit fails produces output identical to a run whose
every edit succeeds, and that output is an unconditional success report. -/
theorem c5_counterexample :
    publishMulti "T" [[hrNode], [hrNode]] (fun i => .ok ("p" ++ toString i))
        (fun _ => .error "editboom") =
      publishMulti "T" [[hrNode], [hrNode]] (fun i => .ok ("p" ++ toString i))
        (fun _ => .ok "") ∧
    (publishMulti "T" [[hrNode], [hrNode]] (fun i => .ok ("p" ++ toString i))
        (fun _ => .error "editboom")).1 =
      .success 2 ["https://telegra.ph/p0", "https://telegra.ph/p1"] "https://telegra.ph/p0" := by
  exact ⟨rfl, by decide⟩

/-- C5 (amended) — after a successful placeholder phase, the relink loop
attempts every part's edit, in order, regardless of the edit outcomes
(so an edit failure rolls nothing back), but the outcomes are not
collected: the publish output is entirely independent of the edit oracle,
and the final report unconditionally claims success with the part count
and URLs, enumerating no per-part edit result. -/
theorem c5_edit_results_ignored (title : String) (parts : List (List JNode))
    (createRes editRes editRes' : Nat → Except String String) (path : Nat → String)
    (hok : ∀ k, k < parts.length → createRes k = .ok (path k)) :
    publishMulti title parts createRes editRes = publishMulti title parts createRes editRes' ∧
    (publishMulti title parts createRes editRes).1 =
      .success parts.length
        ((List.range parts.length).map (fun k => "https://telegra.ph/" ++ path k))
        (((List.range parts.length).map (fun k => "https://telegra.ph/" ++ path k)).headD "") ∧
    (publishMulti title parts createRes editRes).2 =
      (List.range parts.length).map (fun k => .create k (partTitle title k)) ++
        (List.range parts.length).map (fun k => .edit k (path k) (partTitle title k)) := by
  have hcp := createPhase_ok title createRes path parts 0 (by
    intro k hk
    rw [Nat.zero_add]
    exact hok k hk)
  simp only [Nat.zero_add] at hcp
  refine ⟨rfl, ?_, ?_⟩
  · unfold publishMulti
    rw [hcp]
  · unfold publishMulti
    rw [hcp]
    simp only []
    rw [editPhase_zip title _ _ 0 (by
      rw [add_navigation_links_length]
      simp)]
    simp only [List.length_map, List.length_range, Nat.zero_add]
    congr 1
    apply List.map_congr_left
    intro k hk
    have hk' : k < parts.length := List.mem_range.mp hk
    rw [List.getD_eq_getElem?_getD, List.getElem?_map, List.getElem?_range hk']
    rfl

/-- Witness for C5 (amended): two parts whose creates succeed; with a
failing edit oracle the report still claims success and both edits were
attempted in order. -/
theorem c5_edit_results_ignored_witness :
    (publishMulti "T" [[hrNode], [hrNode]] (fun i => .ok ("p" ++ toString i))
        (fun _ => .error "editboom")).1 =
      .success 2 ["https://telegra.ph/p0", "https://telegra.ph/p1"] "https://telegra.ph/p0" ∧
    (publishMulti "T" [[hrNode], [hrNode]] (fun i => .ok ("p" ++ toString i))
        (fun _ => .error "editboom")).2 =
      [ApiCall.create 0 "T", .create 1 "T (часть 2)", .edit 0 "p0" "T", .edit 1 "p1" "T (часть 2)"] := by
  have h := c5_edit_results_ignored "T" [[hrNode], [hrNode]]
    (fun i => .ok ("p" ++ toString i)) (fun _ => .error "editboom") (fun _ => .ok "")
    (fun i => "p" ++ toString i) (fun k _ => rfl)
  exact ⟨by rw [h.2.1]; decide, by rw [h.2.2]; decide⟩
